import Mathlib

/-!
Shallow embedding of the APC40 bank-router script (`src/main.py`).

The script maintains 8 software banks of knob values for a MIDI control
surface.  Inbound events are classified: a note-on on the track-select
note (0x33) with positive velocity switches banks (target = channel),
control-changes in the device/track knob ranges are stored in the active
bank and forwarded to the virtual output on a bank-encoding channel, and
everything else is passed through.

Python dicts keyed by control id are modelled as association lists
(`List (Nat × Nat)`); a Python dict preserves insertion order and an
update of an existing key keeps its position, which `dictSet` mirrors.
Python list indexing `bank_states[bank]` may raise `IndexError`; the
embedding models that with `List.get?` and an `ok : Bool` flag on each
step result (`ok = false` means the handler raised).  Output to the two
ports is modelled as a single interleaved trace of (port, message) pairs
in send order.
-/

namespace APC

/-- The two outbound sinks of the script: the hardware port and the
virtual port. -/
inductive Port where
  | hw
  | virt
deriving DecidableEq

/-- A MIDI message as the script consumes/produces it via mido:
note-on / note-off (channel, note, velocity), control-change
(channel, control, value), or any other message (modelled opaquely). -/
inductive Msg where
  | note_on (channel note velocity : Nat)
  | note_off (channel note velocity : Nat)
  | control_change (channel control value : Nat)
  | other (channel d1 d2 : Nat)
deriving DecidableEq

/-- A trace of sends, in order, tagged with the destination port. -/
abbrev Trace := List (Port × Msg)

/-- `TRACK_SELECT_NOTE = 0x33` from `main.py`. -/
def TRACK_SELECT_NOTE : Nat := 0x33

/-- `DEVICE_VALUE_CCS = list(range(0x10, 0x18))` from `main.py`. -/
def DEVICE_VALUE_CCS : List Nat := List.range' 0x10 8

/-- `TRACK_VALUE_CCS = list(range(0x30, 0x38))` from `main.py`. -/
def TRACK_VALUE_CCS : List Nat := List.range' 0x30 8

/-- `NUM_BANKS = 8` from `main.py`. -/
def NUM_BANKS : Nat := 8

/-- Python-dict update on an association list: replace the value of the
first occurrence of the key in place, else append the new binding. -/
def dictSet : List (Nat × Nat) → Nat → Nat → List (Nat × Nat)
  | [], k, v => [(k, v)]
  | p :: rest, k, v =>
      if p.1 = k then (k, v) :: rest else p :: dictSet rest k v

/-- Python-dict lookup on an association list. -/
def dictGet : List (Nat × Nat) → Nat → Option Nat
  | [], _ => none
  | p :: rest, k => if p.1 = k then some p.2 else dictGet rest k

/-- One bank's state: the `'device'` and `'track'` dicts of `bank_states`. -/
structure BankState where
  device : List (Nat × Nat)
  track : List (Nat × Nat)
deriving DecidableEq

/-- The initial content of one bank: every device/track value cc ↦ 0,
as built by the comprehension in `main.py`. -/
def initBank : BankState :=
  { device := DEVICE_VALUE_CCS.map (fun cc => (cc, 0)),
    track := TRACK_VALUE_CCS.map (fun cc => (cc, 0)) }

/-- The mutable program state: the `bank_states` list and `active_bank`. -/
structure ProgState where
  bank_states : List BankState
  active_bank : Nat
deriving DecidableEq

/-- Initial state: 8 zeroed banks, `active_bank = 0`. -/
def initState : ProgState :=
  { bank_states := List.replicate NUM_BANKS initBank, active_bank := 0 }

/-- Result of one handler/dispatch step: the state after the step, the
trace of sends it performed, and `ok = false` iff it raised
(an out-of-range `bank_states[...]` access). -/
structure StepResult where
  st : ProgState
  tr : Trace
  ok : Bool
deriving DecidableEq

/-- `light_track_select`: one note-on on the track-select note per
channel in [0, 8), velocity 127 at the selected bank and 0 elsewhere. -/
def light_track_select (bank : Nat) : List Msg :=
  (List.range NUM_BANKS).map (fun ch =>
    Msg.note_on ch TRACK_SELECT_NOTE (if ch = bank then 127 else 0))

/-- `recall_bank`: replay the stored values of a bank — for each device
cc a hardware send on channel 0 then a virtual send on channel `bank`,
then for each track cc a hardware send on channel 0 then a virtual send
on channel `bank + 8`.  The Bool is false iff `bank_states[bank]`
raised IndexError (nothing is sent in that case). -/
def recall_bank (bank : Nat) (states : List BankState) : Trace × Bool :=
  match states[bank]? with
  | none => ([], false)
  | some bs =>
      (bs.device.flatMap (fun p =>
          [(Port.hw, Msg.control_change 0 p.1 p.2),
           (Port.virt, Msg.control_change bank p.1 p.2)])
        ++ bs.track.flatMap (fun p =>
          [(Port.hw, Msg.control_change 0 p.1 p.2),
           (Port.virt, Msg.control_change (bank + 8) p.1 p.2)]),
       true)

/-- `handle_cc`: store a device/track knob value in the active bank and
forward it to the virtual output on the bank-encoding channel, or pass
any other cc through unmodified. -/
def handle_cc (channel cc val : Nat) (st : ProgState) : StepResult :=
  if cc ∈ DEVICE_VALUE_CCS then
    match st.bank_states[st.active_bank]? with
    | none => ⟨st, [], false⟩
    | some bs =>
        let bs1 : BankState := { bs with device := dictSet bs.device cc val }
        ⟨{ st with bank_states := st.bank_states.set st.active_bank bs1 },
         [(Port.virt, Msg.control_change st.active_bank cc val)], true⟩
  else if cc ∈ TRACK_VALUE_CCS then
    match st.bank_states[st.active_bank]? with
    | none => ⟨st, [], false⟩
    | some bs =>
        let bs1 : BankState := { bs with track := dictSet bs.track cc val }
        ⟨{ st with bank_states := st.bank_states.set st.active_bank bs1 },
         [(Port.virt, Msg.control_change (st.active_bank + 8) cc val)], true⟩
  else
    ⟨st, [(Port.virt, Msg.control_change channel cc val)], true⟩

/-- `handle_track_select`: the note's channel is the new bank; equal to
the current bank is a silent no-op, otherwise set the bank, relight the
LEDs and recall the bank. -/
def handle_track_select (channel : Nat) (st : ProgState) : StepResult :=
  if channel = st.active_bank then ⟨st, [], true⟩
  else
    let st1 : ProgState := { st with active_bank := channel }
    let leds : Trace := (light_track_select channel).map (fun m => (Port.hw, m))
    let r := recall_bank channel st1.bank_states
    ⟨st1, leds ++ r.1, r.2⟩

/-- One iteration of the dispatch loop in `main`: bank-select note-ons
go to `handle_track_select`, note-offs on the track-select note are
dropped, control-changes go to `handle_cc`, everything else is sent to
the virtual output unmodified. -/
def processEvent (msg : Msg) (st : ProgState) : StepResult :=
  match msg with
  | Msg.note_on ch note vel =>
      if note = TRACK_SELECT_NOTE ∧ vel > 0 then handle_track_select ch st
      else ⟨st, [(Port.virt, msg)], true⟩
  | Msg.note_off _ note _ =>
      if note = TRACK_SELECT_NOTE then ⟨st, [], true⟩
      else ⟨st, [(Port.virt, msg)], true⟩
  | Msg.control_change ch cc v => handle_cc ch cc v st
  | Msg.other a b c => ⟨st, [(Port.virt, Msg.other a b c)], true⟩

/-- The two knob groups of the data model. -/
inductive Group where
  | device
  | track
deriving DecidableEq

/-- The control-id range of each group. -/
def groupCCs : Group → List Nat
  | Group.device => DEVICE_VALUE_CCS
  | Group.track => TRACK_VALUE_CCS

/-- The virtual-output channel mapping of the spec: device traffic on
channel = bank, track traffic on channel = bank + 8 (the literals used
in `handle_cc` and `recall_bank`). -/
def mapChannel (g : Group) (bank : Nat) : Nat :=
  match g with
  | Group.device => bank
  | Group.track => bank + NUM_BANKS

/-- The group's association list inside one bank. -/
def BankState.table (bs : BankState) : Group → List (Nat × Nat)
  | Group.device => bs.device
  | Group.track => bs.track

/-- Bank-store read: `bank_states[bank][group][cc]`, `none` on a missing
bank or key. -/
def getStore (states : List BankState) (bank : Nat) (g : Group) (cc : Nat) :
    Option Nat :=
  match states[bank]? with
  | none => none
  | some bs => dictGet (bs.table g) cc

/-- Bank-store read with default 0 (every initialised key is present). -/
def getVal (states : List BankState) (bank : Nat) (g : Group) (cc : Nat) : Nat :=
  (getStore states bank g cc).getD 0

/-- A bank is well-formed when its dicts hold exactly the initialised
keys, in insertion order. -/
def wfBank (bs : BankState) : Prop :=
  bs.device.map Prod.fst = DEVICE_VALUE_CCS ∧
  bs.track.map Prod.fst = TRACK_VALUE_CCS

/-- The whole state is well-formed: 8 banks, each with the initialised
key sets. -/
def wfState (st : ProgState) : Prop :=
  st.bank_states.length = NUM_BANKS ∧ ∀ bs ∈ st.bank_states, wfBank bs

/-- Repeated live updates to one control: fold `handle_cc` over a value
sequence (inbound channel is irrelevant to the store path). -/
def processCCSeq (cc : Nat) (vals : List Nat) (st : ProgState) : ProgState :=
  vals.foldl (fun s v => (handle_cc 0 cc v s).st) st

/-- Decides whether a message is a note-on. -/
def isNoteOnMsg : Msg → Bool
  | Msg.note_on _ _ _ => true
  | _ => false

/-- Decides whether a send is a note-on with velocity 127 (a lit LED). -/
def isLed127 (pm : Port × Msg) : Bool :=
  match pm.2 with
  | Msg.note_on _ _ v => v = 127
  | _ => false

/-- Events the dispatch loop forwards unmodified (claim C9's class):
note messages off the track-select note, control-changes outside both
knob-value ranges, and any other message type. -/
def isPassthroughEvent : Msg → Prop
  | Msg.note_on _ note _ => note ≠ TRACK_SELECT_NOTE
  | Msg.note_off _ note _ => note ≠ TRACK_SELECT_NOTE
  | Msg.control_change _ cc _ => cc ∉ DEVICE_VALUE_CCS ∧ cc ∉ TRACK_VALUE_CCS
  | Msg.other _ _ _ => True

/-! ### Dictionary lemmas -/

lemma dictGet_dictSet_self (d : List (Nat × Nat)) (k v : Nat) :
    dictGet (dictSet d k v) k = some v := by
  induction d with
  | nil => simp [dictSet, dictGet]
  | cons p rest ih =>
      by_cases h : p.1 = k
      · simp [dictSet, h, dictGet]
      · simp [dictSet, h, dictGet, ih]

lemma dictSet_keys_of_mem (d : List (Nat × Nat)) (k v : Nat)
    (h : k ∈ d.map Prod.fst) :
    (dictSet d k v).map Prod.fst = d.map Prod.fst := by
  induction d with
  | nil => simp at h
  | cons p rest ih =>
      by_cases hp : p.1 = k
      · simp [dictSet, hp]
      · have hk : k ∈ rest.map Prod.fst := by
          rw [List.map_cons] at h
          rcases List.mem_cons.mp h with h1 | h1
          · exact absurd h1.symm hp
          · exact h1
        simp [dictSet, hp, ih hk]

lemma mem_of_dictGet_eq_some (d : List (Nat × Nat)) (k v : Nat)
    (h : dictGet d k = some v) : (k, v) ∈ d := by
  induction d with
  | nil => simp [dictGet] at h
  | cons p rest ih =>
      obtain ⟨p1, p2⟩ := p
      by_cases hp : p1 = k
      · subst hp
        simp [dictGet] at h
        subst h
        exact List.mem_cons_self _ _
      · simp [dictGet, hp] at h
        exact List.mem_cons_of_mem _ (ih h)

lemma dictGet_isSome_of_mem_keys (d : List (Nat × Nat)) (k : Nat)
    (h : k ∈ d.map Prod.fst) : ∃ v, dictGet d k = some v := by
  induction d with
  | nil => simp at h
  | cons p rest ih =>
      by_cases hp : p.1 = k
      · exact ⟨p.2, by simp [dictGet, hp]⟩
      · have hk : k ∈ rest.map Prod.fst := by
          rw [List.map_cons] at h
          rcases List.mem_cons.mp h with h1 | h1
          · exact absurd h1.symm hp
          · exact h1
        obtain ⟨v, hv⟩ := ih hk
        exact ⟨v, by simp [dictGet, hp, hv]⟩

/-! ### Range facts -/

lemma DEVICE_VALUE_CCS_eq :
    DEVICE_VALUE_CCS = [16, 17, 18, 19, 20, 21, 22, 23] := by decide

lemma TRACK_VALUE_CCS_eq :
    TRACK_VALUE_CCS = [48, 49, 50, 51, 52, 53, 54, 55] := by decide

lemma not_mem_device_of_mem_track (c : Nat) (h : c ∈ TRACK_VALUE_CCS) :
    c ∉ DEVICE_VALUE_CCS := by
  rw [TRACK_VALUE_CCS_eq] at h
  rw [DEVICE_VALUE_CCS_eq]
  simp only [List.mem_cons, List.not_mem_nil, or_false] at h ⊢
  omega

/-! ### Claim theorems (first batch) -/

/-- C1 (code_bug evidence): the code does not keep `active_bank` in
[0, 8).  From the initial state (where it is 0), a bank-select note-on
on channel 8 — a well-formed MIDI channel in [0, 16) — sets
`active_bank` to 8 and the handler then raises (IndexError on
`bank_states[8]`), so the handler does not complete without error. -/
theorem bank_select_out_of_range_crash :
    initState.active_bank = 0 ∧
    (processEvent (Msg.note_on 8 TRACK_SELECT_NOTE 127) initState).st.active_bank = 8 ∧
    (processEvent (Msg.note_on 8 TRACK_SELECT_NOTE 127) initState).ok = false := by
  decide

/-- C2 (counterexample): a note-on on the bank-select note with velocity
0 is NOT ignored — the dispatch loop falls through and forwards it to
the virtual output, so the claim's "emits no output message" is false
for this event. -/
theorem note_on_vel0_passed_through :
    processEvent (Msg.note_on 0 TRACK_SELECT_NOTE 0) initState =
      ⟨initState, [(Port.virt, Msg.note_on 0 TRACK_SELECT_NOTE 0)], true⟩ := by
  decide

/-- C2 (amended): a note-off on the bank-select note is ignored (no
output, no state change); a note-on on the bank-select note with
velocity 0 is instead forwarded unmodified to the virtual output, with
no state change. -/
theorem bank_select_release_behavior (st : ProgState) (ch vel : Nat) :
    processEvent (Msg.note_off ch TRACK_SELECT_NOTE vel) st = ⟨st, [], true⟩ ∧
    processEvent (Msg.note_on ch TRACK_SELECT_NOTE 0) st =
      ⟨st, [(Port.virt, Msg.note_on ch TRACK_SELECT_NOTE 0)], true⟩ := by
  constructor
  · simp [processEvent]
  · simp [processEvent]

/-- C3: a bank-select event whose target equals the current active bank
is a complete no-op: no message on either output, bank store and active
bank unchanged, no error. -/
theorem self_select_noop (st : ProgState) (ch vel : Nat)
    (hvel : 0 < vel) (hch : ch = st.active_bank) :
    processEvent (Msg.note_on ch TRACK_SELECT_NOTE vel) st = ⟨st, [], true⟩ := by
  simp [processEvent, handle_track_select, hch, hvel]

/-- Witness for C3 at a concrete input. -/
theorem self_select_noop_witness :
    (0 : Nat) < 1 ∧ (0 : Nat) = initState.active_bank ∧
    processEvent (Msg.note_on 0 TRACK_SELECT_NOTE 1) initState =
      ⟨initState, [], true⟩ :=
  ⟨by decide, by decide,
    self_select_noop initState 0 1 (by decide) (by decide)⟩

/-- C8: the channel mapping sends device traffic to channel = bank and
track traffic to channel = bank + 8; for banks in [0, 8) every mapped
channel is a legal MIDI channel (≤ 15) and the device and track images
are disjoint (device < 8 ≤ track). -/
theorem mapChannel_range (b : Nat) (hb : b < NUM_BANKS) :
    mapChannel Group.device b = b ∧
    mapChannel Group.track b = b + 8 ∧
    (∀ g, mapChannel g b ≤ 15) ∧
    mapChannel Group.device b < 8 ∧ 8 ≤ mapChannel Group.track b := by
  have hb8 : b < 8 := by
    simp only [NUM_BANKS] at hb
    exact hb
  refine ⟨rfl, rfl, ?_, ?_, ?_⟩
  · intro g
    cases g <;> simp only [mapChannel, NUM_BANKS] <;> omega
  · simp only [mapChannel]
    omega
  · simp only [mapChannel, NUM_BANKS]
    omega

/-- Witness for C8 at a concrete input. -/
theorem mapChannel_range_witness :
    (3 : Nat) < NUM_BANKS ∧
    (mapChannel Group.device 3 = 3 ∧
     mapChannel Group.track 3 = 3 + 8 ∧
     (∀ g, mapChannel g 3 ≤ 15) ∧
     mapChannel Group.device 3 < 8 ∧ 8 ≤ mapChannel Group.track 3) :=
  ⟨by decide, mapChannel_range 3 (by decide)⟩

/-- C9: any inbound event off the bank-select note whose control id (for
control-changes) lies outside both knob ranges is forwarded unmodified
to the virtual output, with no state change and no error. -/
theorem passthrough_unmodified (st : ProgState) (m : Msg)
    (h : isPassthroughEvent m) :
    processEvent m st = ⟨st, [(Port.virt, m)], true⟩ := by
  cases m with
  | note_on ch note vel =>
      have hn : ¬(note = TRACK_SELECT_NOTE ∧ vel > 0) := fun hh => h hh.1
      simp [processEvent, hn]
  | note_off ch note vel =>
      have hn : note ≠ TRACK_SELECT_NOTE := h
      simp [processEvent, hn]
  | control_change ch cc v =>
      obtain ⟨h1, h2⟩ := h
      simp [processEvent, handle_cc, h1, h2]
  | other a b c => simp [processEvent]

/-- Witness for C9 at a concrete input. -/
theorem passthrough_unmodified_witness :
    isPassthroughEvent (Msg.control_change 2 7 99) ∧
    processEvent (Msg.control_change 2 7 99) initState =
      ⟨initState, [(Port.virt, Msg.control_change 2 7 99)], true⟩ :=
  ⟨by constructor <;> decide,
    passthrough_unmodified initState (Msg.control_change 2 7 99)
      (by constructor <;> decide)⟩

/-! ### Live update (C4, C6) -/

lemma getElem?_bank (st : ProgState) (hb : st.active_bank < st.bank_states.length) :
    ∃ bs, st.bank_states[st.active_bank]? = some bs :=
  ⟨st.bank_states[st.active_bank], List.getElem?_eq_getElem hb⟩

lemma handle_cc_step (st : ProgState) (g : Group) (ch c v : Nat)
    (hb : st.active_bank < st.bank_states.length) (hc : c ∈ groupCCs g) :
    (handle_cc ch c v st).ok = true ∧
    (handle_cc ch c v st).tr =
      [(Port.virt, Msg.control_change (mapChannel g st.active_bank) c v)] ∧
    (handle_cc ch c v st).st.active_bank = st.active_bank ∧
    (handle_cc ch c v st).st.bank_states.length = st.bank_states.length ∧
    getStore (handle_cc ch c v st).st.bank_states st.active_bank g c = some v := by
  obtain ⟨bs, hbs⟩ := getElem?_bank st hb
  cases g with
  | device =>
      have hcd : c ∈ DEVICE_VALUE_CCS := hc
      simp [handle_cc, hcd, hbs, getStore, BankState.table, mapChannel,
        dictGet_dictSet_self, List.getElem?_set_self hb]
  | track =>
      have hct : c ∈ TRACK_VALUE_CCS := hc
      have hcd : c ∉ DEVICE_VALUE_CCS := not_mem_device_of_mem_track c hct
      simp [handle_cc, hcd, hct, hbs, getStore, BankState.table, mapChannel,
        NUM_BANKS, dictGet_dictSet_self, List.getElem?_set_self hb]

/-- C6: a control-change in the device or track value range is stored at
(active bank, group, control) and exactly one control-change — same
control id, same value, channel = `mapChannel group activeBank` — goes
to the virtual output; nothing goes to the hardware output and the
active bank is unchanged. -/
theorem live_update_emits_one_virtual (st : ProgState) (g : Group) (ch c v : Nat)
    (hb : st.active_bank < st.bank_states.length) (hc : c ∈ groupCCs g) :
    (handle_cc ch c v st).ok = true ∧
    (handle_cc ch c v st).tr =
      [(Port.virt, Msg.control_change (mapChannel g st.active_bank) c v)] ∧
    getStore (handle_cc ch c v st).st.bank_states st.active_bank g c = some v ∧
    (handle_cc ch c v st).st.active_bank = st.active_bank := by
  obtain ⟨h1, h2, h3, _, h5⟩ := handle_cc_step st g ch c v hb hc
  exact ⟨h1, h2, h5, h3⟩

/-- Witness for C6 at a concrete input. -/
theorem live_update_emits_one_virtual_witness :
    initState.active_bank < initState.bank_states.length ∧
    (0x10 : Nat) ∈ groupCCs Group.device ∧
    ((handle_cc 0 0x10 64 initState).ok = true ∧
     (handle_cc 0 0x10 64 initState).tr =
       [(Port.virt, Msg.control_change (mapChannel Group.device initState.active_bank) 0x10 64)] ∧
     getStore (handle_cc 0 0x10 64 initState).st.bank_states
       initState.active_bank Group.device 0x10 = some 64 ∧
     (handle_cc 0 0x10 64 initState).st.active_bank = initState.active_bank) :=
  ⟨by decide, by decide,
    live_update_emits_one_virtual initState Group.device 0 0x10 64
      (by decide) (by decide)⟩

/-- C4: last-write-wins — folding the live-update handler over a value
sequence `vs ++ [v]` for one control leaves the store at
(active bank, group, control) holding the final value `v`. -/
theorem last_write_wins (st : ProgState) (g : Group) (c : Nat)
    (vs : List Nat) (v : Nat)
    (hb : st.active_bank < st.bank_states.length) (hc : c ∈ groupCCs g) :
    getStore (processCCSeq c (vs ++ [v]) st).bank_states
      st.active_bank g c = some v := by
  induction vs generalizing st with
  | nil =>
      obtain ⟨_, _, _, _, h5⟩ := handle_cc_step st g 0 c v hb hc
      simpa [processCCSeq] using h5
  | cons v0 rest ih =>
      obtain ⟨_, _, h3, h4, _⟩ := handle_cc_step st g 0 c v0 hb hc
      have hb1 : (handle_cc 0 c v0 st).st.active_bank <
          (handle_cc 0 c v0 st).st.bank_states.length := by
        rw [h3, h4]
        exact hb
      have := ih (handle_cc 0 c v0 st).st hb1
      rw [h3] at this
      simpa [processCCSeq] using this

/-- Witness for C4 at a concrete input. -/
theorem last_write_wins_witness :
    initState.active_bank < initState.bank_states.length ∧
    (0x30 : Nat) ∈ groupCCs Group.track ∧
    getStore (processCCSeq 0x30 ([5, 9] ++ [64]) initState).bank_states
      initState.active_bank Group.track 0x30 = some 64 :=
  ⟨by decide, by decide,
    last_write_wins initState Group.track 0x30 [5, 9] 64 (by decide) (by decide)⟩

/-! ### LED feedback (C5) -/

lemma recall_flatMap_filter_noteOn (d : List (Nat × Nat)) (a b : Nat) :
    ((d.flatMap (fun p =>
        [(Port.hw, Msg.control_change a p.1 p.2),
         (Port.virt, Msg.control_change b p.1 p.2)])).filter
      (fun pm => isNoteOnMsg pm.2)) = [] := by
  induction d with
  | nil => simp
  | cons p rest ih =>
      rw [List.flatMap_cons, List.filter_append, ih]
      simp [isNoteOnMsg]

lemma recall_flatMap_countP_led (d : List (Nat × Nat)) (a b : Nat) :
    ((d.flatMap (fun p =>
        [(Port.hw, Msg.control_change a p.1 p.2),
         (Port.virt, Msg.control_change b p.1 p.2)])).countP isLed127) = 0 := by
  induction d with
  | nil => simp
  | cons p rest ih =>
      rw [List.flatMap_cons, List.countP_append, ih]
      simp [isLed127]

lemma countP_led_range_zero (n t : Nat) (ht : n ≤ t) :
    (((List.range n).map (fun i =>
        (Port.hw, Msg.note_on i TRACK_SELECT_NOTE (if i = t then 127 else 0)))).countP
      isLed127) = 0 := by
  induction n with
  | zero => simp
  | succ n ih =>
      have hnt : n ≠ t := by omega
      simp [List.range_succ, List.countP_append, isLed127, hnt,
        ih (Nat.le_of_succ_le ht)]

lemma countP_led_range_one (n t : Nat) (ht : t < n) :
    (((List.range n).map (fun i =>
        (Port.hw, Msg.note_on i TRACK_SELECT_NOTE (if i = t then 127 else 0)))).countP
      isLed127) = 1 := by
  induction n with
  | zero => omega
  | succ n ih =>
      by_cases hnt : t = n
      · subst hnt
        simp [List.range_succ, List.countP_append, isLed127,
          countP_led_range_zero t t (Nat.le_refl t)]
      · have ht' : t < n := by omega
        have hnt' : n ≠ t := fun h => hnt h.symm
        simp [List.range_succ, List.countP_append, isLed127, hnt', ih ht']

lemma leds_map_form (t : Nat) :
    ((light_track_select t).map fun m => (Port.hw, m)) =
      (List.range NUM_BANKS).map (fun i =>
        (Port.hw, Msg.note_on i TRACK_SELECT_NOTE (if i = t then 127 else 0))) := by
  simp [light_track_select, List.map_map]

lemma leds_filter_noteOn (t : Nat) :
    (((light_track_select t).map fun m => (Port.hw, m)).filter
        (fun pm => isNoteOnMsg pm.2)) =
      ((light_track_select t).map fun m => (Port.hw, m)) := by
  apply List.filter_eq_self.mpr
  intro pm hpm
  rw [List.mem_map] at hpm
  obtain ⟨m, hm, rfl⟩ := hpm
  rw [light_track_select, List.mem_map] at hm
  obtain ⟨i, _, rfl⟩ := hm
  rfl

/-- C5: a bank switch to target `t ∈ [0, 8)` emits exactly 8 note-on
messages on the bank-select note — one per channel `i ∈ [0, 8)`, with
velocity 127 iff `i = t` and 0 otherwise — and its whole trace contains
exactly one velocity-127 note-on. -/
theorem bank_switch_led_exclusivity (st : ProgState) (t : Nat)
    (ht : t < NUM_BANKS) (hne : t ≠ st.active_bank) :
    ((handle_track_select t st).tr.filter (fun pm => isNoteOnMsg pm.2)) =
      (List.range NUM_BANKS).map (fun i =>
        (Port.hw, Msg.note_on i TRACK_SELECT_NOTE (if i = t then 127 else 0))) ∧
    (handle_track_select t st).tr.countP isLed127 = 1 := by
  have ht8 : t < 8 := by
    simp only [NUM_BANKS] at ht
    exact ht
  simp only [handle_track_select, if_neg hne]
  rcases hb : st.bank_states[t]? with _ | bs <;>
    simp only [recall_bank, hb, List.filter_append, List.countP_append,
      recall_flatMap_filter_noteOn, recall_flatMap_countP_led,
      List.append_nil, List.filter_nil, List.countP_nil, Nat.add_zero,
      leds_filter_noteOn] <;>
    refine ⟨?_, ?_⟩ <;>
    first
      | simpa [NUM_BANKS] using leds_map_form t
      | simpa [light_track_select, List.countP_map, Function.comp]
          using countP_led_range_one 8 t ht8

/-- Witness for C5 at a concrete input. -/
theorem bank_switch_led_exclusivity_witness :
    (3 : Nat) < NUM_BANKS ∧ (3 : Nat) ≠ initState.active_bank ∧
    (((handle_track_select 3 initState).tr.filter (fun pm => isNoteOnMsg pm.2)) =
      (List.range NUM_BANKS).map (fun i =>
        (Port.hw, Msg.note_on i TRACK_SELECT_NOTE (if i = 3 then 127 else 0))) ∧
     (handle_track_select 3 initState).tr.countP isLed127 = 1) :=
  ⟨by decide, by decide,
    bank_switch_led_exclusivity initState 3 (by decide) (by decide)⟩

/-! ### Recall (C7, C10) -/

lemma not_mem_track_of_mem_device (c : Nat) (h : c ∈ DEVICE_VALUE_CCS) :
    c ∉ TRACK_VALUE_CCS := by
  rw [DEVICE_VALUE_CCS_eq] at h
  rw [TRACK_VALUE_CCS_eq]
  simp only [List.mem_cons, List.not_mem_nil, or_false] at h ⊢
  omega

lemma length_flatMap_pair {α : Type} (d : List (Nat × Nat))
    (f g : Nat × Nat → α) :
    (d.flatMap (fun p => [f p, g p])).length = 2 * d.length := by
  induction d with
  | nil => simp
  | cons p rest ih =>
      rw [List.flatMap_cons, List.length_append, ih]
      simp
      omega

lemma count_hw_flatMap (d : List (Nat × Nat)) (vch c v : Nat) :
    ((d.flatMap (fun p =>
        [(Port.hw, Msg.control_change 0 p.1 p.2),
         (Port.virt, Msg.control_change vch p.1 p.2)])).count
      (Port.hw, Msg.control_change 0 c v)) = d.count (c, v) := by
  induction d with
  | nil => simp
  | cons p rest ih =>
      obtain ⟨p1, p2⟩ := p
      rw [List.flatMap_cons, List.count_append, ih, List.count_cons,
        List.count_cons, List.count_cons, List.count_nil]
      simp only [beq_iff_eq, Prod.mk.injEq, Msg.control_change.injEq]
      split_ifs <;> simp_all
      all_goals omega

lemma count_virt_flatMap (d : List (Nat × Nat)) (vch c v : Nat) :
    ((d.flatMap (fun p =>
        [(Port.hw, Msg.control_change 0 p.1 p.2),
         (Port.virt, Msg.control_change vch p.1 p.2)])).count
      (Port.virt, Msg.control_change vch c v)) = d.count (c, v) := by
  induction d with
  | nil => simp
  | cons p rest ih =>
      obtain ⟨p1, p2⟩ := p
      rw [List.flatMap_cons, List.count_append, ih, List.count_cons,
        List.count_cons, List.count_cons, List.count_nil]
      simp only [beq_iff_eq, Prod.mk.injEq, Msg.control_change.injEq]
      split_ifs <;> simp_all
      all_goals omega

lemma count_flatMap_notkey (d : List (Nat × Nat)) (vch tch c v : Nat) (q : Port)
    (h : c ∉ d.map Prod.fst) :
    ((d.flatMap (fun p =>
        [(Port.hw, Msg.control_change 0 p.1 p.2),
         (Port.virt, Msg.control_change vch p.1 p.2)])).count
      (q, Msg.control_change tch c v)) = 0 := by
  induction d with
  | nil => simp
  | cons p rest ih =>
      rw [List.map_cons] at h
      have hp : ¬(c = p.1) := fun hh => h (by rw [hh]; exact List.mem_cons_self _ _)
      have hrest : c ∉ rest.map Prod.fst :=
        fun hh => h (List.mem_cons_of_mem _ hh)
      rw [List.flatMap_cons, List.count_append, ih hrest, List.count_cons,
        List.count_cons, List.count_nil]
      simp only [beq_iff_eq, Prod.mk.injEq, Msg.control_change.injEq]
      split_ifs <;> simp_all

lemma count_eq_one_of_nodup_keys (d : List (Nat × Nat)) (c v : Nat)
    (hnd : (d.map Prod.fst).Nodup) (hmem : (c, v) ∈ d) :
    d.count (c, v) = 1 := by
  induction d with
  | nil => simp at hmem
  | cons p rest ih =>
      rw [List.map_cons, List.nodup_cons] at hnd
      rcases List.mem_cons.mp hmem with h | h
      · have hnotrest : (c, v) ∉ rest := by
          intro hmem2
          apply hnd.1
          rw [← h]
          exact List.mem_map_of_mem Prod.fst hmem2
        rw [List.count_cons, List.count_eq_zero.mpr hnotrest, ← h]
        simp
      · have hne : (c, v) ≠ p := by
          intro he
          apply hnd.1
          rw [← he]
          exact List.mem_map_of_mem Prod.fst h
        have hne2 : p ≠ (c, v) := fun hh => hne hh.symm
        rw [List.count_cons, ih hnd.2 h]
        simp [hne, hne2]

lemma flatMap_eq_keys_flatMap {α : Type} (d : List (Nat × Nat))
    (f : Nat × Nat → List α) (hnd : (d.map Prod.fst).Nodup) :
    d.flatMap f =
      (d.map Prod.fst).flatMap (fun c => f (c, (dictGet d c).getD 0)) := by
  induction d with
  | nil => simp
  | cons p rest ih =>
      rw [List.map_cons, List.nodup_cons] at hnd
      rw [List.map_cons, List.flatMap_cons, List.flatMap_cons]
      congr 1
      · have hp : dictGet (p :: rest) p.1 = some p.2 := by simp [dictGet]
        rw [hp]
        rfl
      · rw [ih hnd.2, List.flatMap_def, List.flatMap_def]
        congr 1
        apply List.map_congr_left
        intro c hc
        have hcp : ¬(p.1 = c) := fun hh => hnd.1 (hh ▸ hc)
        simp [dictGet, hcp]

/-- Key sets of the two groups are duplicate-free. -/
lemma device_ccs_nodup : DEVICE_VALUE_CCS.Nodup := by decide

lemma track_ccs_nodup : TRACK_VALUE_CCS.Nodup := by decide

/-- The initial state is well-formed. -/
lemma wfState_init : wfState initState := by
  constructor
  · decide
  · intro bs hbs
    have hb : bs = initBank := by
      simp only [initState, List.mem_replicate] at hbs
      exact hbs.2
    rw [hb]
    constructor <;> decide

/-- C7: recalling a bank `t ∈ [0, 8)` from a well-formed state succeeds
and emits 32 messages in total; for every (group, control) pair in
Device ∪ Track the stored value `v` exists and the trace holds exactly
one hardware control-change on channel 0 and exactly one virtual
control-change on channel `mapChannel group t` carrying `v`. -/
theorem recall_emits_two_per_control (st : ProgState) (t : Nat)
    (hwf : wfState st) (ht : t < NUM_BANKS) :
    (recall_bank t st.bank_states).2 = true ∧
    (recall_bank t st.bank_states).1.length = 32 ∧
    ∀ g : Group, ∀ c ∈ groupCCs g, ∃ v,
      getStore st.bank_states t g c = some v ∧
      (recall_bank t st.bank_states).1.count
        (Port.hw, Msg.control_change 0 c v) = 1 ∧
      (recall_bank t st.bank_states).1.count
        (Port.virt, Msg.control_change (mapChannel g t) c v) = 1 := by
  obtain ⟨hlen, hwfb⟩ := hwf
  have ht8 : t < st.bank_states.length := by rw [hlen]; exact ht
  obtain ⟨bs, hbs⟩ : ∃ bs, st.bank_states[t]? = some bs :=
    ⟨st.bank_states[t], List.getElem?_eq_getElem ht8⟩
  obtain ⟨hdev, htrk⟩ : wfBank bs := hwfb bs (List.getElem?_mem hbs)
  have hdevnd : (bs.device.map Prod.fst).Nodup := by
    rw [hdev]; exact device_ccs_nodup
  have htrknd : (bs.track.map Prod.fst).Nodup := by
    rw [htrk]; exact track_ccs_nodup
  have hdevlen : bs.device.length = 8 := by
    have := congrArg List.length hdev
    simpa using this
  have htrklen : bs.track.length = 8 := by
    have := congrArg List.length htrk
    simpa using this
  refine ⟨by simp [recall_bank, hbs], ?_, ?_⟩
  · simp only [recall_bank, hbs, List.length_append, length_flatMap_pair,
      hdevlen, htrklen]
  · intro g c hc
    cases g with
    | device =>
        have hck : c ∈ bs.device.map Prod.fst := by rw [hdev]; exact hc
        obtain ⟨v, hv⟩ := dictGet_isSome_of_mem_keys bs.device c hck
        have hmem : (c, v) ∈ bs.device := mem_of_dictGet_eq_some _ _ _ hv
        have hnotrk : c ∉ bs.track.map Prod.fst := by
          rw [htrk]; exact not_mem_track_of_mem_device c hc
        refine ⟨v, by simp [getStore, hbs, BankState.table, hv], ?_, ?_⟩
        · simp only [recall_bank, hbs, List.count_append,
            count_hw_flatMap, count_flatMap_notkey _ _ _ _ _ _ hnotrk,
            count_eq_one_of_nodup_keys bs.device c v hdevnd hmem]
        · simp only [recall_bank, hbs, mapChannel, List.count_append,
            count_virt_flatMap, count_flatMap_notkey _ _ _ _ _ _ hnotrk,
            count_eq_one_of_nodup_keys bs.device c v hdevnd hmem]
    | track =>
        have hck : c ∈ bs.track.map Prod.fst := by rw [htrk]; exact hc
        obtain ⟨v, hv⟩ := dictGet_isSome_of_mem_keys bs.track c hck
        have hmem : (c, v) ∈ bs.track := mem_of_dictGet_eq_some _ _ _ hv
        have hnodev : c ∉ bs.device.map Prod.fst := by
          rw [hdev]; exact not_mem_device_of_mem_track c hc
        refine ⟨v, by simp [getStore, hbs, BankState.table, hv], ?_, ?_⟩
        · simp only [recall_bank, hbs, List.count_append,
            count_hw_flatMap, count_flatMap_notkey _ _ _ _ _ _ hnodev,
            count_eq_one_of_nodup_keys bs.track c v htrknd hmem]
        · simp only [recall_bank, hbs, mapChannel, NUM_BANKS,
            List.count_append, count_virt_flatMap,
            count_flatMap_notkey _ _ _ _ _ _ hnodev,
            count_eq_one_of_nodup_keys bs.track c v htrknd hmem]

/-- Witness for C7 at a concrete input. -/
theorem recall_emits_two_per_control_witness :
    wfState initState ∧ (0 : Nat) < NUM_BANKS ∧
    ((recall_bank 0 initState.bank_states).2 = true ∧
     (recall_bank 0 initState.bank_states).1.length = 32 ∧
     ∀ g : Group, ∀ c ∈ groupCCs g, ∃ v,
       getStore initState.bank_states 0 g c = some v ∧
       (recall_bank 0 initState.bank_states).1.count
         (Port.hw, Msg.control_change 0 c v) = 1 ∧
       (recall_bank 0 initState.bank_states).1.count
         (Port.virt, Msg.control_change (mapChannel g 0) c v) = 1) :=
  ⟨wfState_init, by decide,
    recall_emits_two_per_control initState 0 wfState_init (by decide)⟩

/-- C10: the recall trace for a bank is a fixed, fully deterministic
sequence — the 8 device controls in ascending id order (0x10..0x17),
then the 8 track controls in ascending order (0x30..0x37), and for each
control the hardware message immediately precedes the matching virtual
message.  Since `recall_bank` is a pure function of the bank store,
two recalls of the same bank with no intervening writes produce this
identical sequence. -/
theorem recall_order_deterministic (st : ProgState) (t : Nat)
    (hwf : wfState st) (ht : t < NUM_BANKS) :
    (recall_bank t st.bank_states).1 =
      DEVICE_VALUE_CCS.flatMap (fun c =>
        [(Port.hw, Msg.control_change 0 c
            (getVal st.bank_states t Group.device c)),
         (Port.virt, Msg.control_change (mapChannel Group.device t) c
            (getVal st.bank_states t Group.device c))])
      ++ TRACK_VALUE_CCS.flatMap (fun c =>
        [(Port.hw, Msg.control_change 0 c
            (getVal st.bank_states t Group.track c)),
         (Port.virt, Msg.control_change (mapChannel Group.track t) c
            (getVal st.bank_states t Group.track c))]) := by
  obtain ⟨hlen, hwfb⟩ := hwf
  have ht8 : t < st.bank_states.length := by rw [hlen]; exact ht
  obtain ⟨bs, hbs⟩ : ∃ bs, st.bank_states[t]? = some bs :=
    ⟨st.bank_states[t], List.getElem?_eq_getElem ht8⟩
  obtain ⟨hdev, htrk⟩ : wfBank bs := hwfb bs (List.getElem?_mem hbs)
  have hdevnd : (bs.device.map Prod.fst).Nodup := by
    rw [hdev]; exact device_ccs_nodup
  have htrknd : (bs.track.map Prod.fst).Nodup := by
    rw [htrk]; exact track_ccs_nodup
  simp only [recall_bank, hbs]
  congr 1
  · rw [flatMap_eq_keys_flatMap bs.device _ hdevnd, hdev]
    congr 1
    funext c
    simp [getVal, getStore, hbs, BankState.table, mapChannel]
  · rw [flatMap_eq_keys_flatMap bs.track _ htrknd, htrk]
    congr 1
    funext c
    simp [getVal, getStore, hbs, BankState.table, mapChannel, NUM_BANKS]

/-- Witness for C10 at a concrete input. -/
theorem recall_order_deterministic_witness :
    wfState initState ∧ (2 : Nat) < NUM_BANKS ∧
    (recall_bank 2 initState.bank_states).1 =
      DEVICE_VALUE_CCS.flatMap (fun c =>
        [(Port.hw, Msg.control_change 0 c
            (getVal initState.bank_states 2 Group.device c)),
         (Port.virt, Msg.control_change (mapChannel Group.device 2) c
            (getVal initState.bank_states 2 Group.device c))])
      ++ TRACK_VALUE_CCS.flatMap (fun c =>
        [(Port.hw, Msg.control_change 0 c
            (getVal initState.bank_states 2 Group.track c)),
         (Port.virt, Msg.control_change (mapChannel Group.track 2) c
            (getVal initState.bank_states 2 Group.track c))]) :=
  ⟨wfState_init, by decide,
    recall_order_deterministic initState 2 wfState_init (by decide)⟩

end APC
